import Mathlib

/-!
# Verification of cloneEC2.py

A shallow embedding of `cloneEC2.py`, a script that clones an EC2 instance:
it creates an AMI from a source instance (unless an `ImageId` override is
supplied), fetches the source instance's configuration, sanitises it into a
launch-API shape, merges command-line overrides on top, and launches a new
instance.

Python dictionaries are modelled as association lists `Dict` over a value
type `Val` covering the value shapes the script manipulates.  Mutation of a
dictionary (the script mutates `source_config` in place) is modelled by
explicit state passing: `sanitise_instance_config` returns both the mutated
input dictionary and the filtered output dictionary.  A `KeyError` or
`TypeError` raised by the Python code is modelled as `Option.none`.
-/

/-- A tag, i.e. a Python dict `{'Key': k, 'Value': v}` as used in EC2 tag
lists. -/
structure Tag where
  key : String
  value : String
deriving DecidableEq, Repr

/-- A security-group record as returned by `describe_instances`: a dict with
a `GroupId` and a `GroupName`.  The script only reads `GroupId`. -/
structure SGRecord where
  groupId : String
  groupName : String
deriving DecidableEq, Repr

/-- An IAM instance-profile record as returned by `describe_instances`: a
dict with an `Arn` and an `Id`.  The script only reads `Arn`. -/
structure IamProfileRecord where
  arn : String
  id : String
deriving DecidableEq, Repr

/-- The value shapes stored in the dictionaries the script manipulates. -/
inductive Val where
  | str : String → Val
  | boolV : Bool → Val
  | tags : List Tag → Val
  | sgRecords : List SGRecord → Val
  | strList : List String → Val
  | iam : IamProfileRecord → Val
deriving DecidableEq, Repr

/-- A Python dictionary: an ordered association list from string keys to
values.  Well-formed dictionaries have no duplicate keys. -/
abbrev Dict := List (String × Val)

/-- Dictionary lookup: `d[k]` (first matching entry). -/
def dictGet (d : Dict) (k : String) : Option Val :=
  match d with
  | [] => none
  | (k', v) :: rest => if k' = k then some v else dictGet rest k

/-- Dictionary update `d[k] = v`: replace the value at the first entry whose
key is `k` (keeping its position, as Python does), or append a new entry at
the end when `k` is not present. -/
def dictSet (d : Dict) (k : String) (v : Val) : Dict :=
  match d with
  | [] => [(k, v)]
  | (k', v') :: rest =>
    if k' = k then (k, v) :: rest else (k', v') :: dictSet rest k v

/-- The Python merge `{**a, **b}`: start from `a` and write each entry of
`b` over it in order.  On well-formed (duplicate-free) dictionaries this is
exactly Python's right-biased dict merge. -/
def dictMerge (a b : Dict) : Dict :=
  b.foldl (fun acc kv => dictSet acc kv.1 kv.2) a

/-- Extract a tag list from a value; `none` models the `TypeError` Python
would raise when iterating/indexing a non-tag-list value. -/
def getTags : Val → Option (List Tag)
  | .tags ts => some ts
  | _ => none

/-- Extract a security-group record list from a value; `none` models the
`TypeError` Python would raise on `sg['GroupId']` otherwise. -/
def getSGs : Val → Option (List SGRecord)
  | .sgRecords gs => some gs
  | _ => none

/-- Extract an IAM profile record from a value; `none` models the
`TypeError` Python would raise on `value['Arn']` otherwise. -/
def getIamRec : Val → Option IamProfileRecord
  | .iam r => some r
  | _ => none

/-- Python's `s.startswith(p)`: `p` is a prefix of `s`.  Modelled on the
character lists underlying the strings (extensionally the predicate of
`String.startsWith`, but kernel-computable). -/
def strStartsWith (s p : String) : Bool :=
  p.data.isPrefixOf s.data

/-- The `meta_tags` list built inside `sanitise_instance_config`
(lines 124-133): the CloneMethod marker first, then the CloneSource tag
naming the source instance. -/
def meta_tags (sourceinstance : String) : List Tag :=
  [⟨"CloneMethod", "cloneEC2.py"⟩, ⟨"CloneSource", sourceinstance⟩]

/-- Lines 96-103 of `sanitise_instance_config`: read
`source_config['SecurityGroups']` (KeyError when absent), collect each
record's `GroupId`, and write the flat id list back over
`source_config['SecurityGroups']`. -/
def sanitise_step_sg (cfg : Dict) : Option Dict :=
  match dictGet cfg "SecurityGroups" with
  | none => none
  | some v =>
    match getSGs v with
    | none => none
    | some gs =>
      some (dictSet cfg "SecurityGroups" (.strList (gs.map SGRecord.groupId)))

/-- Lines 118-122: when `'IamInstanceProfile' in source_config`, replace the
record with its `Arn` string; otherwise store the empty string. -/
def sanitise_step_iam (cfg : Dict) : Option Dict :=
  match dictGet cfg "IamInstanceProfile" with
  | none => some (dictSet cfg "IamInstanceProfile" (.str ""))
  | some v =>
    match getIamRec v with
    | none => none
    | some r => some (dictSet cfg "IamInstanceProfile" (.str r.arn))

/-- Lines 124-142: when `'Tags' in source_config`, replace the tag list with
`meta_tags` followed by every source tag whose key does not start with
`'aws:'`, in original order; otherwise store `meta_tags` alone. -/
def sanitise_step_tags (sourceinstance : String) (cfg : Dict) : Option Dict :=
  match dictGet cfg "Tags" with
  | none => some (dictSet cfg "Tags" (.tags (meta_tags sourceinstance)))
  | some v =>
    match getTags v with
    | none => none
    | some source_tags =>
      some (dictSet cfg "Tags"
        (.tags (meta_tags sourceinstance ++
          source_tags.filter (fun t => !(strStartsWith t.key "aws:")))))

/-- The `filter_keys` list of `sanitise_instance_config` (lines 106-116). -/
def filter_keys : List String :=
  ["ImageId", "InstanceType", "KeyName", "SubnetId", "VpcId",
   "SecurityGroups", "IamInstanceProfile", "EbsOptimized", "Tags"]

/-- Lines 144-148: `for key in filter_keys: filtered_config[key] =
source_config[key]` — `none` models the `KeyError` raised when a key is
absent from `source_config`. -/
def project (cfg : Dict) : List String → Dict → Option Dict
  | [], acc => some acc
  | k :: ks, acc =>
    match dictGet cfg k with
    | none => none
    | some v => project cfg ks (dictSet acc k v)

/-- `sanitise_instance_config(source_config)` (lines 90-150), with the
module-level `sourceinstance` passed explicitly.  Returns the pair
(mutated `source_config`, returned `filtered_config`); `none` models an
uncaught `KeyError`/`TypeError`. -/
def sanitise_instance_config (sourceinstance : String) (source_config : Dict) :
    Option (Dict × Dict) :=
  (sanitise_step_sg source_config).bind fun c1 =>
    (sanitise_step_iam c1).bind fun c2 =>
      (sanitise_step_tags sourceinstance c2).bind fun c3 =>
        (project c3 filter_keys []).bind fun filtered_config =>
          some (c3, filtered_config)

/-- `modify_instance_config(source_config, **kwargs)` (lines 153-162):
copy the keyword arguments into `append_config` and return
`{**source_config, **append_config}`. -/
def modify_instance_config (source_config : Dict) (kwargs : Dict) : Dict :=
  let append_config := kwargs
  dictMerge source_config append_config

/-- The launch request `run_instance` (lines 164-190) assembles for boto3
`run_instances`.  Field values are the raw dictionary values (boto3's own
type validation is external to the script); the IAM profile is re-wrapped as
`{'Arn': config['IamInstanceProfile']}` (only the inner value is recorded,
the wrapper shape being constant), and the tags are wrapped into a single
tag specification with the fixed resource type `'instance'`. -/
structure LaunchRequest where
  imageId : Val
  instanceType : Val
  keyName : Val
  subnetId : Val
  securityGroupIds : Val
  ebsOptimized : Val
  iamInstanceProfileArn : Val
  tagResourceType : String
  tagSpecTags : Val
  minCount : Nat
  maxCount : Nat
deriving DecidableEq, Repr

/-- `run_instance(config)` (lines 164-190): read the eight fields the launch
call uses out of `config` (a `KeyError` on a missing key is `none`) and
build the launch request with `MinCount = MaxCount = 1`. -/
def run_instance (config : Dict) : Option LaunchRequest :=
  match dictGet config "ImageId" with
  | none => none
  | some imageId =>
  match dictGet config "InstanceType" with
  | none => none
  | some instanceType =>
  match dictGet config "KeyName" with
  | none => none
  | some keyName =>
  match dictGet config "SubnetId" with
  | none => none
  | some subnetId =>
  match dictGet config "SecurityGroups" with
  | none => none
  | some securityGroups =>
  match dictGet config "EbsOptimized" with
  | none => none
  | some ebsOptimized =>
  match dictGet config "IamInstanceProfile" with
  | none => none
  | some iamArn =>
  match dictGet config "Tags" with
  | none => none
  | some tagList =>
    some { imageId := imageId
           instanceType := instanceType
           keyName := keyName
           subnetId := subnetId
           securityGroupIds := securityGroups
           ebsOptimized := ebsOptimized
           iamInstanceProfileArn := iamArn
           tagResourceType := "instance"
           tagSpecTags := tagList
           minCount := 1
           maxCount := 1 }

/-- A provider API call observable in the image-provisioning phase of
`main`: `create_image` wraps `client.create_image` (lines 52-65) and
`image_status` wraps `client.describe_images` (lines 68-76). -/
inductive ApiCall where
  | createImage (instanceId : String)
  | describeImages (imageId : String)
deriving DecidableEq, Repr

/-- The delay, in seconds, the `while` loop of `main` sleeps between two
status polls (two `time.sleep(5)` calls per iteration, lines 203-205). -/
def poll_delay_seconds : Nat := 10

/-- The polling loop of `main` (lines 202-205):
`while (image_status(ami) != 'available')`.  The provider's successive
`describe_images` answers are an oracle `states : Nat → String` (the `n`-th
status call returns `states n`).  The loop is given explicit fuel, since the
source loop need not terminate: `poll_loop states fuel i = some j` means the
loop, resumed at the `i`-th status call, exits after observing
`states j = "available"`; `none` means it was still running after `fuel`
further checks. -/
def poll_loop (states : Nat → String) : Nat → Nat → Option Nat
  | 0, _ => none
  | fuel + 1, i => if states i = "available" then some i else poll_loop states fuel (i + 1)

/-- The command-line `key=value` overrides (`sysargv_config`), as parsed at
lines 230-241: an association list of string keys and string values. -/
abbrev Overrides := List (String × String)

/-- Lookup in the parsed overrides (Python dict of strings). -/
def strGet (ov : Overrides) (k : String) : Option String :=
  match ov with
  | [] => none
  | (k', v) :: rest => if k' = k then some v else strGet rest k

/-- The override dict as it participates in dictionary merges: every
command-line value is a string. -/
def overridesToDict (ov : Overrides) : Dict :=
  ov.map (fun p => (p.1, Val.str p.2))

/-- The image-provisioning phase of `main` (lines 195-211): when `'ImageId'
not in sysargv_config`, call `create_image` (the provider's fresh image id
is the oracle `createdImageId`), then poll until available — note the loop
makes one status call per condition check and line 208 makes one further
status call after the loop; when an `ImageId` override is present, use it
with no provider call.  Returns the resolved `ami` and the list of API calls
made, or `none` when the fueled poll did not finish. -/
def image_phase (sourceinstance : String) (overrides : Overrides)
    (createdImageId : String) (states : Nat → String) (fuel : Nat) :
    Option (String × List ApiCall) :=
  match strGet overrides "ImageId" with
  | some s => some (s, [])
  | none =>
    match poll_loop states fuel 0 with
    | none => none
    | some i =>
      some (createdImageId,
        ApiCall.createImage sourceinstance ::
          ((List.range (i + 1)).map (fun _ => ApiCall.describeImages createdImageId) ++
            [ApiCall.describeImages createdImageId]))

/-- `main()` (lines 193-228), with the provider modelled as oracles: the
image phase resolves `ami`, `get_instance_config` returns `descriptor`,
`sanitise_instance_config` sanitises it, `custom_config =
{'ImageId': ami, **sysargv_config}` is merged over the sanitised
configuration by `modify_instance_config`, and `run_instance` receives the
result.  Returns the resolved ami, the image-phase API calls, the effective
configuration and the launch request; `none` when any stage raised (or the
poll fuel ran out). -/
def main_run (sourceinstance : String) (overrides : Overrides)
    (createdImageId : String) (states : Nat → String) (fuel : Nat)
    (descriptor : Dict) :
    Option (String × List ApiCall × Dict × LaunchRequest) :=
  (image_phase sourceinstance overrides createdImageId states fuel).bind fun ac =>
    (sanitise_instance_config sourceinstance descriptor).bind fun mf =>
      let custom_config :=
        dictMerge [("ImageId", Val.str ac.1)] (overridesToDict overrides)
      let new_config := modify_instance_config mf.2 custom_config
      (run_instance new_config).bind fun req =>
        some (ac.1, ac.2, new_config, req)

/-! ## Dictionary lemmas -/

theorem dictGet_dictSet (d : Dict) (k : String) (v : Val) (k' : String) :
    dictGet (dictSet d k v) k' = if k = k' then some v else dictGet d k' := by
  induction d with
  | nil => simp [dictGet, dictSet]
  | cons hd tl ih =>
    obtain ⟨a, b⟩ := hd
    by_cases hak : a = k
    · subst hak
      by_cases hk' : a = k' <;> simp [dictGet, dictSet, hk']
    · by_cases hk' : a = k'
      · subst hk'
        have : k ≠ a := fun h => hak h.symm
        simp [dictGet, dictSet, hak, this]
      · simp [dictGet, dictSet, hak, hk', ih]

theorem dictGet_dictSet_same (d : Dict) (k : String) (v : Val) :
    dictGet (dictSet d k v) k = some v := by
  simp [dictGet_dictSet]

theorem dictGet_dictSet_ne (d : Dict) (k : String) (v : Val) (k' : String)
    (h : k ≠ k') : dictGet (dictSet d k v) k' = dictGet d k' := by
  simp [dictGet_dictSet, h]

theorem dictGet_eq_none_of_not_mem (d : Dict) (k : String)
    (h : k ∉ d.map Prod.fst) : dictGet d k = none := by
  induction d with
  | nil => rfl
  | cons hd tl ih =>
    obtain ⟨a, b⟩ := hd
    simp only [List.map_cons, List.mem_cons] at h
    push_neg at h
    have : a ≠ k := fun hak => h.1 hak.symm
    simp [dictGet, this, ih h.2]

theorem keys_dictSet (d : Dict) (k : String) (v : Val) :
    (dictSet d k v).map Prod.fst = d.map Prod.fst ∨
      (dictSet d k v).map Prod.fst = d.map Prod.fst ++ [k] := by
  induction d with
  | nil => right; rfl
  | cons hd tl ih =>
    obtain ⟨a, b⟩ := hd
    by_cases hak : a = k
    · left; simp [dictSet, hak]
    · rcases ih with h | h
      · left; simp [dictSet, hak, h]
      · right; simp [dictSet, hak, h]

theorem nodup_keys_dictSet (d : Dict) (k : String) (v : Val)
    (h : (d.map Prod.fst).Nodup) : ((dictSet d k v).map Prod.fst).Nodup := by
  induction d with
  | nil => simp [dictSet]
  | cons hd tl ih =>
    obtain ⟨a, b⟩ := hd
    simp only [List.map_cons, List.nodup_cons] at h
    by_cases hak : a = k
    · subst hak
      have hset : dictSet ((a, b) :: tl) a v = (a, v) :: tl := by
        simp [dictSet]
      rw [hset]
      simp only [List.map_cons, List.nodup_cons]
      exact h
    · simp only [dictSet, if_neg hak, List.map_cons, List.nodup_cons]
      refine ⟨?_, ih h.2⟩
      rcases keys_dictSet tl k v with hk | hk
      · rw [hk]; exact h.1
      · rw [hk]
        simp only [List.mem_append, List.mem_singleton]
        rintro (hmem | rfl)
        · exact h.1 hmem
        · exact hak rfl

theorem dictGet_dictMerge_of_none (a b : Dict) (k : String)
    (h : dictGet b k = none) : dictGet (dictMerge a b) k = dictGet a k := by
  induction b generalizing a with
  | nil => rfl
  | cons hd tl ih =>
    obtain ⟨k0, v0⟩ := hd
    simp only [dictGet] at h
    by_cases hk0 : k0 = k
    · simp [hk0] at h
    · simp only [if_neg hk0] at h
      show dictGet (dictMerge (dictSet a k0 v0) tl) k = dictGet a k
      rw [ih (dictSet a k0 v0) h, dictGet_dictSet_ne _ _ _ _ hk0]

theorem dictGet_dictMerge_of_some (a b : Dict) (k : String) (v : Val)
    (hnd : (b.map Prod.fst).Nodup) (h : dictGet b k = some v) :
    dictGet (dictMerge a b) k = some v := by
  induction b generalizing a with
  | nil => simp [dictGet] at h
  | cons hd tl ih =>
    obtain ⟨k0, v0⟩ := hd
    simp only [List.map_cons, List.nodup_cons] at hnd
    simp only [dictGet] at h
    by_cases hk0 : k0 = k
    · subst hk0
      rw [if_pos rfl] at h
      injection h with h
      subst h
      have htl : dictGet tl k0 = none := dictGet_eq_none_of_not_mem tl k0 hnd.1
      show dictGet (dictMerge (dictSet a k0 v0) tl) k0 = some v0
      rw [dictGet_dictMerge_of_none _ _ _ htl, dictGet_dictSet_same]
    · simp only [if_neg hk0] at h
      show dictGet (dictMerge (dictSet a k0 v0) tl) k = some v
      exact ih (dictSet a k0 v0) hnd.2 h

theorem nodup_keys_dictMerge (a b : Dict) (h : (a.map Prod.fst).Nodup) :
    ((dictMerge a b).map Prod.fst).Nodup := by
  induction b generalizing a with
  | nil => exact h
  | cons hd tl ih =>
    exact ih (dictSet a hd.1 hd.2) (nodup_keys_dictSet a hd.1 hd.2 h)

theorem dictGet_overridesToDict (ov : Overrides) (k : String) :
    dictGet (overridesToDict ov) k = (strGet ov k).map Val.str := by
  induction ov with
  | nil => rfl
  | cons hd tl ih =>
    obtain ⟨a, b⟩ := hd
    show dictGet ((a, Val.str b) :: overridesToDict tl) k =
      Option.map Val.str (strGet ((a, b) :: tl) k)
    by_cases hak : a = k <;> simp [dictGet, strGet, hak, ih]

theorem keys_overridesToDict (ov : Overrides) :
    (overridesToDict ov).map Prod.fst = ov.map Prod.fst := by
  induction ov with
  | nil => rfl
  | cons hd tl ih => simp [overridesToDict, ih]

/-! ## Projection lemmas -/

theorem project_none_of_missing (cfg : Dict) (ks : List String) (acc : Dict)
    (k : String) (hk : k ∈ ks) (hmiss : dictGet cfg k = none) :
    project cfg ks acc = none := by
  induction ks generalizing acc with
  | nil => cases hk
  | cons k0 tl ih =>
    rcases List.mem_cons.mp hk with rfl | hk'
    · simp [project, hmiss]
    · cases hget : dictGet cfg k0 with
      | none => simp [project, hget]
      | some v =>
        simp only [project, hget]
        exact ih (dictSet acc k0 v) hk'

theorem project_frame (cfg : Dict) (ks : List String) (acc out : Dict)
    (k : String) (hk : k ∉ ks) (h : project cfg ks acc = some out) :
    dictGet out k = dictGet acc k := by
  induction ks generalizing acc with
  | nil =>
    simp only [project, Option.some.injEq] at h
    rw [h]
  | cons k0 tl ih =>
    simp only [List.mem_cons] at hk
    push_neg at hk
    cases hget : dictGet cfg k0 with
    | none => simp [project, hget] at h
    | some v =>
      simp only [project, hget] at h
      rw [ih (dictSet acc k0 v) hk.2 h,
        dictGet_dictSet_ne _ _ _ _ (fun he => hk.1 he.symm)]

theorem project_get (cfg : Dict) (ks : List String) (acc out : Dict)
    (k : String) (hk : k ∈ ks) (h : project cfg ks acc = some out) :
    dictGet out k = dictGet cfg k := by
  induction ks generalizing acc with
  | nil => cases hk
  | cons k0 tl ih =>
    cases hget : dictGet cfg k0 with
    | none => simp [project, hget] at h
    | some v =>
      simp only [project, hget] at h
      by_cases hmem : k ∈ tl
      · exact ih (dictSet acc k0 v) hmem h
      · rcases List.mem_cons.mp hk with rfl | hk'
        · rw [project_frame cfg tl _ _ k hmem h, dictGet_dictSet_same, hget]
        · exact absurd hk' hmem

/-! ## Sanitise step lemmas -/

theorem sanitise_step_sg_some (cfg c1 : Dict)
    (h : sanitise_step_sg cfg = some c1) :
    ∃ gs, dictGet cfg "SecurityGroups" = some (.sgRecords gs) ∧
      c1 = dictSet cfg "SecurityGroups" (.strList (gs.map SGRecord.groupId)) := by
  unfold sanitise_step_sg at h
  cases hget : dictGet cfg "SecurityGroups" with
  | none => rw [hget] at h; cases h
  | some v =>
    rw [hget] at h
    cases v with
    | sgRecords gs =>
      refine ⟨gs, rfl, ?_⟩
      simp only [getSGs, Option.some.injEq] at h
      exact h.symm
    | str s => cases h
    | boolV b => cases h
    | tags ts => cases h
    | strList l => cases h
    | iam r => cases h

theorem sanitise_step_sg_frame (cfg c1 : Dict) (k : String)
    (h : sanitise_step_sg cfg = some c1) (hk : k ≠ "SecurityGroups") :
    dictGet c1 k = dictGet cfg k := by
  obtain ⟨gs, _, rfl⟩ := sanitise_step_sg_some cfg c1 h
  exact dictGet_dictSet_ne _ _ _ _ (fun he => hk he.symm)

theorem sanitise_step_iam_some (cfg c2 : Dict)
    (h : sanitise_step_iam cfg = some c2) :
    ∃ s, c2 = dictSet cfg "IamInstanceProfile" (.str s) ∧
      ((∃ r, dictGet cfg "IamInstanceProfile" = some (.iam r) ∧ s = r.arn) ∨
        (dictGet cfg "IamInstanceProfile" = none ∧ s = "")) := by
  unfold sanitise_step_iam at h
  cases hget : dictGet cfg "IamInstanceProfile" with
  | none =>
    rw [hget] at h
    simp only [Option.some.injEq] at h
    exact ⟨"", h.symm, Or.inr ⟨rfl, rfl⟩⟩
  | some v =>
    rw [hget] at h
    cases v with
    | iam r =>
      simp only [getIamRec, Option.some.injEq] at h
      exact ⟨r.arn, h.symm, Or.inl ⟨r, rfl, rfl⟩⟩
    | str s => cases h
    | boolV b => cases h
    | tags ts => cases h
    | strList l => cases h
    | sgRecords gs => cases h

theorem sanitise_step_iam_frame (cfg c2 : Dict) (k : String)
    (h : sanitise_step_iam cfg = some c2) (hk : k ≠ "IamInstanceProfile") :
    dictGet c2 k = dictGet cfg k := by
  obtain ⟨s, rfl, _⟩ := sanitise_step_iam_some cfg c2 h
  exact dictGet_dictSet_ne _ _ _ _ (fun he => hk he.symm)

theorem sanitise_step_tags_some (src : String) (cfg c3 : Dict)
    (h : sanitise_step_tags src cfg = some c3) :
    ∃ newTags, c3 = dictSet cfg "Tags" (.tags newTags) ∧
      ((∃ ts, dictGet cfg "Tags" = some (.tags ts) ∧
          newTags = meta_tags src ++
            ts.filter (fun t => !(strStartsWith t.key "aws:"))) ∨
        (dictGet cfg "Tags" = none ∧ newTags = meta_tags src)) := by
  unfold sanitise_step_tags at h
  cases hget : dictGet cfg "Tags" with
  | none =>
    rw [hget] at h
    simp only [Option.some.injEq] at h
    exact ⟨meta_tags src, h.symm, Or.inr ⟨rfl, rfl⟩⟩
  | some v =>
    rw [hget] at h
    cases v with
    | tags ts =>
      simp only [getTags, Option.some.injEq] at h
      exact ⟨_, h.symm, Or.inl ⟨ts, rfl, rfl⟩⟩
    | str s => cases h
    | boolV b => cases h
    | iam r => cases h
    | strList l => cases h
    | sgRecords gs => cases h

theorem sanitise_step_tags_frame (src : String) (cfg c3 : Dict) (k : String)
    (h : sanitise_step_tags src cfg = some c3) (hk : k ≠ "Tags") :
    dictGet c3 k = dictGet cfg k := by
  obtain ⟨nt, rfl, _⟩ := sanitise_step_tags_some src cfg c3 h
  exact dictGet_dictSet_ne _ _ _ _ (fun he => hk he.symm)

theorem sanitise_anatomy (src : String) (d m f : Dict)
    (h : sanitise_instance_config src d = some (m, f)) :
    ∃ c1 c2, sanitise_step_sg d = some c1 ∧ sanitise_step_iam c1 = some c2 ∧
      sanitise_step_tags src c2 = some m ∧ project m filter_keys [] = some f := by
  simp only [sanitise_instance_config, Option.bind_eq_some, Option.some.injEq,
    Prod.mk.injEq] at h
  obtain ⟨c1, hsg, c2, hiam, c3, htags, f2, hproj, rfl, rfl⟩ := h
  exact ⟨c1, c2, hsg, hiam, htags, hproj⟩

/-! ## Concrete inputs used to instantiate the theorems -/

/-- A concrete source descriptor with all projected keys present, one
reserved (`aws:`-prefixed) tag and one ordinary tag. -/
def exampleDescriptor : Dict :=
  [("ImageId", .str "ami-0"), ("InstanceType", .str "t2.micro"),
   ("KeyName", .str "kp"), ("SubnetId", .str "subnet-1"), ("VpcId", .str "vpc-1"),
   ("SecurityGroups", .sgRecords [⟨"sg-1", "default"⟩, ⟨"sg-2", "web"⟩]),
   ("IamInstanceProfile", .iam ⟨"arn:aws:iam::1:instance-profile/p", "AIPA"⟩),
   ("EbsOptimized", .boolV false),
   ("Tags", .tags [⟨"aws:autoscaling:groupName", "foo"⟩, ⟨"Environment", "prod"⟩])]

/-- What `sanitise_instance_config "i-src" exampleDescriptor` produces: the
descriptor already lists its keys in `filter_keys` order, so the mutated
input and the filtered output coincide. -/
def exampleSanitised : Dict :=
  [("ImageId", .str "ami-0"), ("InstanceType", .str "t2.micro"),
   ("KeyName", .str "kp"), ("SubnetId", .str "subnet-1"), ("VpcId", .str "vpc-1"),
   ("SecurityGroups", .strList ["sg-1", "sg-2"]),
   ("IamInstanceProfile", .str "arn:aws:iam::1:instance-profile/p"),
   ("EbsOptimized", .boolV false),
   ("Tags", .tags [⟨"CloneMethod", "cloneEC2.py"⟩, ⟨"CloneSource", "i-src"⟩,
     ⟨"Environment", "prod"⟩])]

/-- A source descriptor whose tag list already carries a tag keyed
`CloneMethod`. -/
def dupTagDescriptor : Dict :=
  [("ImageId", .str "ami-0"), ("InstanceType", .str "t2.micro"),
   ("KeyName", .str "kp"), ("SubnetId", .str "subnet-1"), ("VpcId", .str "vpc-1"),
   ("SecurityGroups", .sgRecords [⟨"sg-1", "default"⟩]),
   ("IamInstanceProfile", .iam ⟨"arn:aws:iam::1:instance-profile/p", "AIPA"⟩),
   ("EbsOptimized", .boolV false),
   ("Tags", .tags [⟨"CloneMethod", "handmade"⟩])]

/-! ## Claim theorems: sanitiser -/

/-- C1: for every source descriptor on which sanitisation succeeds, the
output tag list starts with exactly the two provenance tags (the
`CloneMethod` marker first, the `CloneSource` tag naming the source instance
second) and then appends every source tag whose key does not start with the
reserved prefix `aws:`, in the source's original order; when the descriptor
has no `Tags` key the output tag list is exactly the two provenance tags
(length 2). -/
theorem sanitise_tags_spec (src : String) (d m f : Dict) (ts : List Tag)
    (h : sanitise_instance_config src d = some (m, f)) :
    meta_tags src = [⟨"CloneMethod", "cloneEC2.py"⟩, ⟨"CloneSource", src⟩] ∧
    (dictGet d "Tags" = some (.tags ts) →
      dictGet f "Tags" = some (.tags (meta_tags src ++
        ts.filter (fun t => !(strStartsWith t.key "aws:"))))) ∧
    (dictGet d "Tags" = none →
      dictGet f "Tags" = some (.tags (meta_tags src)) ∧
        (meta_tags src).length = 2) := by
  obtain ⟨c1, c2, hsg, hiam, htags, hproj⟩ := sanitise_anatomy src d m f h
  have hc2d : dictGet c2 "Tags" = dictGet d "Tags" := by
    rw [sanitise_step_iam_frame c1 c2 "Tags" hiam (by decide),
      sanitise_step_sg_frame d c1 "Tags" hsg (by decide)]
  obtain ⟨nt, rfl, hcases⟩ := sanitise_step_tags_some src c2 m htags
  have hfm : dictGet f "Tags" = some (.tags nt) := by
    rw [project_get (dictSet c2 "Tags" (.tags nt)) filter_keys [] f "Tags"
      (by decide) hproj]
    exact dictGet_dictSet_same _ _ _
  refine ⟨rfl, ?_, ?_⟩
  · intro hts
    rcases hcases with ⟨ts', hts', rfl⟩ | ⟨hnone, rfl⟩
    · rw [hc2d, hts] at hts'
      simp only [Option.some.injEq, Val.tags.injEq] at hts'
      subst hts'
      exact hfm
    · rw [hc2d, hts] at hnone
      cases hnone
  · intro hd
    rcases hcases with ⟨ts', hts', rfl⟩ | ⟨hnone, rfl⟩
    · rw [hc2d, hd] at hts'
      cases hts'
    · exact ⟨hfm, rfl⟩

/-- C1 witness: the theorem applied to `exampleDescriptor`, whose two source
tags are one reserved tag (dropped) and `Environment=prod` (kept). -/
theorem sanitise_tags_spec_witness :
    dictGet exampleSanitised "Tags" =
      some (.tags [⟨"CloneMethod", "cloneEC2.py"⟩, ⟨"CloneSource", "i-src"⟩,
        ⟨"Environment", "prod"⟩]) :=
  (sanitise_tags_spec "i-src" exampleDescriptor exampleSanitised exampleSanitised
      [⟨"aws:autoscaling:groupName", "foo"⟩, ⟨"Environment", "prod"⟩]
      (by decide)).2.1 (by decide)

/-- C2 counterexample: a source descriptor already carrying a tag keyed
`CloneMethod` yields a sanitized tag list in which a second `CloneMethod`
tag does appear (the carried-over source tag), contradicting the claim that
the provenance tags are never duplicated. -/
theorem provenance_duplication_counterexample :
    ((sanitise_instance_config "i-src" dupTagDescriptor).map
        (fun p => dictGet p.2 "Tags")) =
      some (some (.tags [⟨"CloneMethod", "cloneEC2.py"⟩, ⟨"CloneSource", "i-src"⟩,
        ⟨"CloneMethod", "handmade"⟩])) ∧
    ([⟨"CloneMethod", "cloneEC2.py"⟩, ⟨"CloneSource", "i-src"⟩,
        ⟨"CloneMethod", "handmade"⟩] : List Tag).countP
      (fun t => t.key == "CloneMethod") = 2 := by decide

/-- C2 (amended): the two provenance tags are always present and are the
first two entries of the sanitized tag list, before any carried-over source
tags — but a source tag whose key is `CloneMethod` or `CloneSource` (not
being `aws:`-prefixed) is carried over as well, so a duplicate key can
appear among the carried-over tags. -/
theorem sanitise_provenance_tags_first (src : String) (d m f : Dict)
    (L : List Tag) (h : sanitise_instance_config src d = some (m, f))
    (hL : dictGet f "Tags" = some (.tags L)) :
    L.take 2 = meta_tags src ∧
    ∀ t ∈ L.drop 2, ∃ ts, dictGet d "Tags" = some (.tags ts) ∧ t ∈ ts := by
  obtain ⟨c1, c2, hsg, hiam, htags, hproj⟩ := sanitise_anatomy src d m f h
  have hc2d : dictGet c2 "Tags" = dictGet d "Tags" := by
    rw [sanitise_step_iam_frame c1 c2 "Tags" hiam (by decide),
      sanitise_step_sg_frame d c1 "Tags" hsg (by decide)]
  obtain ⟨nt, rfl, hcases⟩ := sanitise_step_tags_some src c2 m htags
  have hfm : dictGet f "Tags" = some (.tags nt) := by
    rw [project_get (dictSet c2 "Tags" (.tags nt)) filter_keys [] f "Tags"
      (by decide) hproj]
    exact dictGet_dictSet_same _ _ _
  rw [hfm] at hL
  simp only [Option.some.injEq, Val.tags.injEq] at hL
  subst hL
  have hmlen : (meta_tags src).length = 2 := rfl
  rcases hcases with ⟨ts', hts', rfl⟩ | ⟨hnone, rfl⟩
  · refine ⟨List.take_left' hmlen, ?_⟩
    intro t ht
    rw [List.drop_left' hmlen] at ht
    exact ⟨ts', by rw [← hc2d]; exact hts', List.mem_of_mem_filter ht⟩
  · refine ⟨rfl, ?_⟩
    intro t ht
    simp [meta_tags] at ht

/-- C2 witness (for the amended claim): on `exampleDescriptor` the first two
sanitized tags are exactly the provenance pair. -/
theorem sanitise_provenance_tags_first_witness :
    ([⟨"CloneMethod", "cloneEC2.py"⟩, ⟨"CloneSource", "i-src"⟩,
      ⟨"Environment", "prod"⟩] : List Tag).take 2 = meta_tags "i-src" :=
  (sanitise_provenance_tags_first "i-src" exampleDescriptor exampleSanitised
      exampleSanitised
      [⟨"CloneMethod", "cloneEC2.py"⟩, ⟨"CloneSource", "i-src"⟩,
        ⟨"Environment", "prod"⟩]
      (by decide) (by decide)).1

/-- C7: the sanitized output always carries an `IamInstanceProfile` field:
the profile record's ARN string when the descriptor has a profile, the empty
string when the descriptor lacks the key — never a missing key. -/
theorem sanitise_iam_spec (src : String) (d m f : Dict) (r : IamProfileRecord)
    (h : sanitise_instance_config src d = some (m, f)) :
    (∃ v, dictGet f "IamInstanceProfile" = some v) ∧
    (dictGet d "IamInstanceProfile" = some (.iam r) →
      dictGet f "IamInstanceProfile" = some (.str r.arn)) ∧
    (dictGet d "IamInstanceProfile" = none →
      dictGet f "IamInstanceProfile" = some (.str "")) := by
  obtain ⟨c1, c2, hsg, hiam, htags, hproj⟩ := sanitise_anatomy src d m f h
  have hc1d : dictGet c1 "IamInstanceProfile" = dictGet d "IamInstanceProfile" :=
    sanitise_step_sg_frame d c1 "IamInstanceProfile" hsg (by decide)
  obtain ⟨s, rfl, hcases⟩ := sanitise_step_iam_some c1 c2 hiam
  have hf : dictGet f "IamInstanceProfile" = some (.str s) := by
    rw [project_get m filter_keys [] f "IamInstanceProfile" (by decide) hproj,
      sanitise_step_tags_frame src _ m "IamInstanceProfile" htags (by decide),
      dictGet_dictSet_same]
  refine ⟨⟨.str s, hf⟩, ?_, ?_⟩
  · intro hr
    rcases hcases with ⟨r', hr', rfl⟩ | ⟨hnone, rfl⟩
    · rw [hc1d, hr] at hr'
      simp only [Option.some.injEq, Val.iam.injEq] at hr'
      rw [hr']
      exact hf
    · rw [hc1d, hr] at hnone
      cases hnone
  · intro hd
    rcases hcases with ⟨r', hr', rfl⟩ | ⟨hnone, rfl⟩
    · rw [hc1d, hd] at hr'
      cases hr'
    · exact hf

/-- C7 witness: the theorem applied to `exampleDescriptor`, whose profile
record dereferences to its ARN. -/
theorem sanitise_iam_spec_witness :
    dictGet exampleSanitised "IamInstanceProfile" =
      some (.str "arn:aws:iam::1:instance-profile/p") :=
  (sanitise_iam_spec "i-src" exampleDescriptor exampleSanitised exampleSanitised
      ⟨"arn:aws:iam::1:instance-profile/p", "AIPA"⟩ (by decide)).2.1 (by decide)

/-- C8: the sanitized output's `SecurityGroups` field is the flat list of
the descriptor's group-record ids, of equal length and in the same order —
never the raw records. -/
theorem sanitise_security_groups_spec (src : String) (d m f : Dict)
    (gs : List SGRecord) (h : sanitise_instance_config src d = some (m, f))
    (hgs : dictGet d "SecurityGroups" = some (.sgRecords gs)) :
    dictGet f "SecurityGroups" = some (.strList (gs.map SGRecord.groupId)) ∧
    (gs.map SGRecord.groupId).length = gs.length := by
  obtain ⟨c1, c2, hsg, hiam, htags, hproj⟩ := sanitise_anatomy src d m f h
  obtain ⟨gs', hgs', rfl⟩ := sanitise_step_sg_some d c1 hsg
  rw [hgs] at hgs'
  simp only [Option.some.injEq, Val.sgRecords.injEq] at hgs'
  subst hgs'
  refine ⟨?_, List.length_map _ _⟩
  rw [project_get m filter_keys [] f "SecurityGroups" (by decide) hproj,
    sanitise_step_tags_frame src c2 m "SecurityGroups" htags (by decide),
    sanitise_step_iam_frame _ c2 "SecurityGroups" hiam (by decide),
    dictGet_dictSet_same]

/-- C8 witness: the theorem applied to `exampleDescriptor`, whose two group
records flatten to their two ids in order. -/
theorem sanitise_security_groups_spec_witness :
    dictGet exampleSanitised "SecurityGroups" =
      some (.strList ["sg-1", "sg-2"]) ∧
    (([⟨"sg-1", "default"⟩, ⟨"sg-2", "web"⟩] : List SGRecord).map
      SGRecord.groupId).length =
      ([⟨"sg-1", "default"⟩, ⟨"sg-2", "web"⟩] : List SGRecord).length :=
  sanitise_security_groups_spec "i-src" exampleDescriptor exampleSanitised
    exampleSanitised [⟨"sg-1", "default"⟩, ⟨"sg-2", "web"⟩] (by decide) (by decide)

/-- C9 counterexample: `sanitise_instance_config` mutates the descriptor it
is given — after sanitising `exampleDescriptor`, the input dictionary's
`SecurityGroups` entry holds the flattened id list, no longer the group
records `get_instance_config` returned. -/
theorem sanitise_mutates_input_counterexample :
    ((sanitise_instance_config "i-src" exampleDescriptor).map
        (fun p => dictGet p.1 "SecurityGroups")) =
      some (some (.strList ["sg-1", "sg-2"])) ∧
    dictGet exampleDescriptor "SecurityGroups" =
      some (.sgRecords [⟨"sg-1", "default"⟩, ⟨"sg-2", "web"⟩]) ∧
    Val.strList ["sg-1", "sg-2"] ≠
      Val.sgRecords [⟨"sg-1", "default"⟩, ⟨"sg-2", "web"⟩] := by decide

/-- C9 (amended): `sanitise_instance_config` mutates its input descriptor,
but only at the three rewritten keys — `SecurityGroups`,
`IamInstanceProfile` and `Tags`; every other field of the descriptor still
holds the value it held when fetched. -/
theorem sanitise_input_mutation_frame (src : String) (d m f : Dict)
    (k : String) (h : sanitise_instance_config src d = some (m, f))
    (hk : k ∉ (["SecurityGroups", "IamInstanceProfile", "Tags"] : List String)) :
    dictGet m k = dictGet d k := by
  obtain ⟨c1, c2, hsg, hiam, htags, hproj⟩ := sanitise_anatomy src d m f h
  simp only [List.mem_cons, List.mem_singleton, not_or] at hk
  rw [sanitise_step_tags_frame src c2 m k htags hk.2.2.1,
    sanitise_step_iam_frame c1 c2 k hiam hk.2.1,
    sanitise_step_sg_frame d c1 k hsg hk.1]

/-- C9 witness (for the amended claim): the mutated `exampleDescriptor`
still holds its original `ImageId`. -/
theorem sanitise_input_mutation_frame_witness :
    dictGet exampleSanitised "ImageId" = dictGet exampleDescriptor "ImageId" :=
  sanitise_input_mutation_frame "i-src" exampleDescriptor exampleSanitised
    exampleSanitised "ImageId" (by decide) (by decide)

/-! ## Claim theorems: merge and launcher -/

theorem dictGet_custom_config_some (sanitised : Dict) (overrides : Overrides)
    (ami s : String) (hnd : (overrides.map Prod.fst).Nodup)
    (hs : strGet overrides "ImageId" = some s) :
    dictGet (modify_instance_config sanitised
      (dictMerge [("ImageId", Val.str ami)] (overridesToDict overrides)))
      "ImageId" = some (Val.str s) := by
  have hbase : (([("ImageId", Val.str ami)] : Dict).map Prod.fst).Nodup := by simp
  have hcknd : ((dictMerge [("ImageId", Val.str ami)]
      (overridesToDict overrides)).map Prod.fst).Nodup :=
    nodup_keys_dictMerge _ _ hbase
  have hcv : dictGet (dictMerge [("ImageId", Val.str ami)]
      (overridesToDict overrides)) "ImageId" = some (Val.str s) := by
    apply dictGet_dictMerge_of_some
    · rw [keys_overridesToDict]; exact hnd
    · rw [dictGet_overridesToDict, hs]; rfl
  exact dictGet_dictMerge_of_some _ _ _ _ hcknd hcv

theorem dictGet_custom_config_none (sanitised : Dict) (overrides : Overrides)
    (ami : String) (hs : strGet overrides "ImageId" = none) :
    dictGet (modify_instance_config sanitised
      (dictMerge [("ImageId", Val.str ami)] (overridesToDict overrides)))
      "ImageId" = some (Val.str ami) := by
  have hbase : (([("ImageId", Val.str ami)] : Dict).map Prod.fst).Nodup := by simp
  have hcknd : ((dictMerge [("ImageId", Val.str ami)]
      (overridesToDict overrides)).map Prod.fst).Nodup :=
    nodup_keys_dictMerge _ _ hbase
  have hov : dictGet (overridesToDict overrides) "ImageId" = none := by
    rw [dictGet_overridesToDict, hs]; rfl
  have hcv : dictGet (dictMerge [("ImageId", Val.str ami)]
      (overridesToDict overrides)) "ImageId" = some (Val.str ami) := by
    rw [dictGet_dictMerge_of_none _ _ _ hov]
    rfl
  exact dictGet_dictMerge_of_some _ _ _ _ hcknd hcv

/-- C3: the merge performed by `modify_instance_config` is right-biased: a
key present in the override dictionary takes the override's value, a key
present only in the sanitized spec keeps the sanitized value, and in the
driver's merge a caller-supplied `ImageId` override wins over both the
sanitized value and the provisioner-resolved image id `ami`. -/
theorem modify_instance_config_right_biased (sanitised ov : Dict)
    (overrides : Overrides) (ami s k : String) (v : Val)
    (hnd : (ov.map Prod.fst).Nodup)
    (hnd2 : (overrides.map Prod.fst).Nodup) :
    (dictGet ov k = some v →
      dictGet (modify_instance_config sanitised ov) k = some v) ∧
    (dictGet ov k = none →
      dictGet (modify_instance_config sanitised ov) k = dictGet sanitised k) ∧
    (strGet overrides "ImageId" = some s →
      dictGet (modify_instance_config sanitised
        (dictMerge [("ImageId", Val.str ami)] (overridesToDict overrides)))
        "ImageId" = some (Val.str s)) :=
  ⟨fun hg => dictGet_dictMerge_of_some sanitised ov k v hnd hg,
   fun hg => dictGet_dictMerge_of_none sanitised ov k hg,
   fun hs => dictGet_custom_config_some sanitised overrides ami s hnd2 hs⟩

/-- C3 witness: an `InstanceType` override wins, an un-overridden `KeyName`
keeps the sanitized value, and with `ImageId=ami-X` on the command line the
effective image id is `ami-X`, not the provisioner-resolved `ami-created`. -/
theorem modify_instance_config_right_biased_witness :
    dictGet (modify_instance_config
        [("InstanceType", Val.str "t2.micro"), ("KeyName", Val.str "kp")]
        [("InstanceType", Val.str "t3.small")]) "InstanceType" =
      some (Val.str "t3.small") ∧
    dictGet (modify_instance_config
        [("InstanceType", Val.str "t2.micro"), ("KeyName", Val.str "kp")]
        [("InstanceType", Val.str "t3.small")]) "KeyName" =
      dictGet [("InstanceType", Val.str "t2.micro"), ("KeyName", Val.str "kp")]
        "KeyName" ∧
    dictGet (modify_instance_config
        [("InstanceType", Val.str "t2.micro"), ("KeyName", Val.str "kp")]
        (dictMerge [("ImageId", Val.str "ami-created")]
          (overridesToDict [("ImageId", "ami-X"), ("SubnetId", "subnet-Y")])))
      "ImageId" = some (Val.str "ami-X") :=
  ⟨(modify_instance_config_right_biased
      [("InstanceType", Val.str "t2.micro"), ("KeyName", Val.str "kp")]
      [("InstanceType", Val.str "t3.small")]
      [("ImageId", "ami-X"), ("SubnetId", "subnet-Y")]
      "ami-created" "ami-X" "InstanceType" (Val.str "t3.small")
      (by decide) (by decide)).1 (by decide),
   (modify_instance_config_right_biased
      [("InstanceType", Val.str "t2.micro"), ("KeyName", Val.str "kp")]
      [("InstanceType", Val.str "t3.small")]
      [("ImageId", "ami-X"), ("SubnetId", "subnet-Y")]
      "ami-created" "ami-X" "KeyName" (Val.str "t3.small")
      (by decide) (by decide)).2.1 (by decide),
   (modify_instance_config_right_biased
      [("InstanceType", Val.str "t2.micro"), ("KeyName", Val.str "kp")]
      [("InstanceType", Val.str "t3.small")]
      [("ImageId", "ami-X"), ("SubnetId", "subnet-Y")]
      "ami-created" "ami-X" "KeyName" (Val.str "t3.small")
      (by decide) (by decide)).2.2 (by decide)⟩

/-- C10: `run_instance` reads only the eight keys
`ImageId, InstanceType, KeyName, SubnetId, SecurityGroups, EbsOptimized,
IamInstanceProfile, Tags`: any two effective configurations agreeing on
those keys yield the same launch request, so extra keys — `VpcId` or an
unrecognized command-line override — have no effect on the launch call. -/
theorem run_instance_reads_fixed_keys (c1 c2 : Dict)
    (h : ∀ k ∈ (["ImageId", "InstanceType", "KeyName", "SubnetId",
        "SecurityGroups", "EbsOptimized", "IamInstanceProfile",
        "Tags"] : List String), dictGet c1 k = dictGet c2 k) :
    run_instance c1 = run_instance c2 := by
  have h1 := h "ImageId" (by decide)
  have h2 := h "InstanceType" (by decide)
  have h3 := h "KeyName" (by decide)
  have h4 := h "SubnetId" (by decide)
  have h5 := h "SecurityGroups" (by decide)
  have h6 := h "EbsOptimized" (by decide)
  have h7 := h "IamInstanceProfile" (by decide)
  have h8 := h "Tags" (by decide)
  unfold run_instance
  rw [h1, h2, h3, h4, h5, h6, h7, h8]

/-- A configuration agreeing with `exampleSanitised` on the eight launch
keys but with a different `VpcId` and an extra unrecognized key. -/
def variantLaunchConfig : Dict :=
  [("ImageId", .str "ami-0"), ("InstanceType", .str "t2.micro"),
   ("KeyName", .str "kp"), ("SubnetId", .str "subnet-1"),
   ("VpcId", .str "vpc-OTHER"),
   ("SecurityGroups", .strList ["sg-1", "sg-2"]),
   ("IamInstanceProfile", .str "arn:aws:iam::1:instance-profile/p"),
   ("EbsOptimized", .boolV false),
   ("Tags", .tags [⟨"CloneMethod", "cloneEC2.py"⟩, ⟨"CloneSource", "i-src"⟩,
     ⟨"Environment", "prod"⟩]),
   ("Unrecognized", .str "ignored")]

/-- C10 witness: changing `VpcId` and adding an unrecognized override key
leaves the launch request identical. -/
theorem run_instance_reads_fixed_keys_witness :
    run_instance exampleSanitised = run_instance variantLaunchConfig :=
  run_instance_reads_fixed_keys exampleSanitised variantLaunchConfig (by decide)

/-! ## Claim theorems: image provisioning -/

theorem poll_loop_some_spec (states : Nat → String) :
    ∀ fuel start i, poll_loop states fuel start = some i →
      states i = "available" ∧ start ≤ i ∧
        ∀ j, start ≤ j → j < i → states j ≠ "available" := by
  intro fuel
  induction fuel with
  | zero => intro start i h; cases h
  | succ fuel ih =>
    intro start i h
    simp only [poll_loop] at h
    by_cases hav : states start = "available"
    · rw [if_pos hav] at h
      injection h with h
      subst h
      exact ⟨hav, le_refl _, fun j h1 h2 _ => absurd h1 (by omega)⟩
    · rw [if_neg hav] at h
      obtain ⟨h1, h2, h3⟩ := ih (start + 1) i h
      refine ⟨h1, by omega, ?_⟩
      intro j hj1 hj2
      by_cases hj : j = start
      · subst hj; exact hav
      · exact h3 j (by omega) hj2

theorem poll_loop_none_of_never (states : Nat → String)
    (h : ∀ n, states n ≠ "available") :
    ∀ fuel start, poll_loop states fuel start = none := by
  intro fuel
  induction fuel with
  | zero => intro start; rfl
  | succ fuel ih =>
    intro start
    simp only [poll_loop, if_neg (h start)]
    exact ih (start + 1)

theorem poll_loop_some_of_available (states : Nat → String) :
    ∀ fuel start, (∃ j, j < fuel ∧ states (start + j) = "available") →
      ∃ i, poll_loop states fuel start = some i := by
  intro fuel
  induction fuel with
  | zero =>
    rintro start ⟨j, hj, _⟩
    omega
  | succ fuel ih =>
    rintro start ⟨j, hj, hav⟩
    by_cases h0 : states start = "available"
    · exact ⟨start, by simp [poll_loop, h0]⟩
    · have hj0 : j ≠ 0 := by
        rintro rfl
        exact h0 (by simpa using hav)
      obtain ⟨i, hi⟩ := ih (start + 1)
        ⟨j - 1, by omega, by rw [show start + 1 + (j - 1) = start + j by omega]; exact hav⟩
      exact ⟨i, by simp [poll_loop, h0, hi]⟩

/-- C5: the polling loop of `main` terminates exactly when a status query
returns `"available"`: any exit observes `"available"` at the first index
where it occurs; when the state sequence never reaches `"available"` the
loop runs out of any amount of fuel (it never terminates — there is no
timeout or retry bound); when some query would return `"available"` the
loop terminates within that much fuel; and the delay between polls is the
fixed constant of 10 seconds (two `time.sleep(5)` calls). -/
theorem poll_loop_termination_spec (states : Nat → String)
    (n fuel start i : Nat) :
    (poll_loop states fuel start = some i →
      states i = "available" ∧
        ∀ j, start ≤ j → j < i → states j ≠ "available") ∧
    ((∀ m, states m ≠ "available") → poll_loop states fuel start = none) ∧
    (states n = "available" → poll_loop states (n + 1) 0 ≠ none) ∧
    poll_delay_seconds = 10 := by
  refine ⟨?_, ?_, ?_, rfl⟩
  · intro h
    obtain ⟨h1, _, h3⟩ := poll_loop_some_spec states fuel start i h
    exact ⟨h1, h3⟩
  · intro hnever
    exact poll_loop_none_of_never states hnever fuel start
  · intro hav
    obtain ⟨j, hj⟩ := poll_loop_some_of_available states (n + 1) 0
      ⟨n, by omega, by simpa using hav⟩
    rw [hj]
    exact Option.some_ne_none j

/-- C5 witness: with a provider that always answers `"pending"` the loop is
still running after any concrete amount of fuel, and with a provider that
answers `"available"` from the third query on, the loop with that much fuel
terminates. -/
theorem poll_loop_termination_spec_witness :
    poll_loop (fun _ => "pending") 25 0 = none ∧
    poll_loop (fun m => if m = 2 then "available" else "pending") 3 0 ≠ none :=
  ⟨(poll_loop_termination_spec (fun _ => "pending") 0 25 0 0).2.1
      (fun m => by decide),
   (poll_loop_termination_spec (fun m => if m = 2 then "available" else "pending")
      2 0 0 0).2.2.1 (by decide)⟩

/-- Does an observed API call create an image? -/
def isCreateImage : ApiCall → Bool
  | .createImage _ => true
  | .describeImages _ => false

/-- C4: when an `ImageId` override is supplied the pipeline makes no
image-creation and no image-status call and the resolved and effective
image ids equal the override exactly; when no `ImageId` override is
supplied, exactly one image-creation call is made and the resolved and
effective image ids equal the id it returned. -/
theorem image_override_bypasses_provisioning (src : String)
    (overrides : Overrides) (cid s ami : String) (states : Nat → String)
    (fuel : Nat) (calls : List ApiCall) (d : Dict)
    (hnd : (overrides.map Prod.fst).Nodup) :
    (strGet overrides "ImageId" = some s →
      image_phase src overrides cid states fuel = some (s, []) ∧
      ∀ ami2 calls2 cfg req,
        main_run src overrides cid states fuel d = some (ami2, calls2, cfg, req) →
        ami2 = s ∧ calls2 = [] ∧ dictGet cfg "ImageId" = some (Val.str s)) ∧
    (strGet overrides "ImageId" = none →
      (image_phase src overrides cid states fuel = some (ami, calls) →
        ami = cid ∧ calls.countP isCreateImage = 1) ∧
      ∀ ami2 calls2 cfg req,
        main_run src overrides cid states fuel d = some (ami2, calls2, cfg, req) →
        ami2 = cid ∧ dictGet cfg "ImageId" = some (Val.str cid)) := by
  constructor
  · intro hs
    have himg : image_phase src overrides cid states fuel = some (s, []) := by
      unfold image_phase
      rw [hs]
    refine ⟨himg, ?_⟩
    intro ami2 calls2 cfg req hmain
    unfold main_run at hmain
    rw [himg] at hmain
    simp only [Option.some_bind, Option.bind_eq_some, Option.some.injEq,
      Prod.mk.injEq] at hmain
    obtain ⟨mf, hsan, req', hreq, he1, he2, he3, he4⟩ := hmain
    refine ⟨he1.symm, he2.symm, ?_⟩
    rw [← he3]
    exact dictGet_custom_config_some mf.2 overrides s s hnd hs
  · intro hs
    constructor
    · intro himg
      cases hpoll : poll_loop states fuel 0 with
      | none =>
        have himg2 : image_phase src overrides cid states fuel = none := by
          unfold image_phase
          rw [hs, hpoll]
        rw [himg2] at himg
        cases himg
      | some idx =>
        have himg2 : image_phase src overrides cid states fuel =
            some (cid, ApiCall.createImage src ::
              ((List.range (idx + 1)).map (fun _ => ApiCall.describeImages cid) ++
                [ApiCall.describeImages cid])) := by
          unfold image_phase
          rw [hs, hpoll]
        rw [himg2] at himg
        simp only [Option.some.injEq, Prod.mk.injEq] at himg
        obtain ⟨rfl, rfl⟩ := himg
        refine ⟨rfl, ?_⟩
        simp [isCreateImage, List.countP_cons, List.countP_append,
          List.countP_map, Function.comp]
    · intro ami2 calls2 cfg req hmain
      unfold main_run at hmain
      cases himg : image_phase src overrides cid states fuel with
      | none => rw [himg] at hmain; cases hmain
      | some ac =>
        have hac : ac.1 = cid := by
          cases hpoll : poll_loop states fuel 0 with
          | none =>
            have himg2 : image_phase src overrides cid states fuel = none := by
              unfold image_phase
              rw [hs, hpoll]
            rw [himg2] at himg
            cases himg
          | some idx =>
            have himg2 : image_phase src overrides cid states fuel =
                some (cid, ApiCall.createImage src ::
                  ((List.range (idx + 1)).map
                      (fun _ => ApiCall.describeImages cid) ++
                    [ApiCall.describeImages cid])) := by
              unfold image_phase
              rw [hs, hpoll]
            rw [himg2] at himg
            simp only [Option.some.injEq] at himg
            rw [← himg]
        rw [himg] at hmain
        simp only [Option.some_bind, Option.bind_eq_some, Option.some.injEq,
          Prod.mk.injEq] at hmain
        obtain ⟨mf, hsan, req', hreq, he1, he2, he3, he4⟩ := hmain
        rw [hac] at he1
        refine ⟨he1.symm, ?_⟩
        rw [← he3, hac]
        exact dictGet_custom_config_none mf.2 overrides cid hs

/-- The effective configuration `main` builds from `exampleDescriptor`
under the command-line override `ImageId=ami-X`. -/
def overriddenConfig : Dict :=
  [("ImageId", .str "ami-X"), ("InstanceType", .str "t2.micro"),
   ("KeyName", .str "kp"), ("SubnetId", .str "subnet-1"), ("VpcId", .str "vpc-1"),
   ("SecurityGroups", .strList ["sg-1", "sg-2"]),
   ("IamInstanceProfile", .str "arn:aws:iam::1:instance-profile/p"),
   ("EbsOptimized", .boolV false),
   ("Tags", .tags [⟨"CloneMethod", "cloneEC2.py"⟩, ⟨"CloneSource", "i-src"⟩,
     ⟨"Environment", "prod"⟩])]

/-- The launch request issued for `overriddenConfig`. -/
def overriddenRequest : LaunchRequest :=
  { imageId := .str "ami-X"
    instanceType := .str "t2.micro"
    keyName := .str "kp"
    subnetId := .str "subnet-1"
    securityGroupIds := .strList ["sg-1", "sg-2"]
    ebsOptimized := .boolV false
    iamInstanceProfileArn := .str "arn:aws:iam::1:instance-profile/p"
    tagResourceType := "instance"
    tagSpecTags := .tags [⟨"CloneMethod", "cloneEC2.py"⟩,
      ⟨"CloneSource", "i-src"⟩, ⟨"Environment", "prod"⟩]
    minCount := 1
    maxCount := 1 }

/-- C4 witness: with `ImageId=ami-X` supplied the image phase makes no API
call and the effective configuration carries `ami-X`; without it, the run
that observed one `"available"` poll made exactly one image-creation
call. -/
theorem image_override_bypasses_provisioning_witness :
    image_phase "i-src" [("ImageId", "ami-X")] "ami-c" (fun _ => "pending") 0 =
      some ("ami-X", []) ∧
    dictGet overriddenConfig "ImageId" = some (Val.str "ami-X") ∧
    ([ApiCall.createImage "i-src", ApiCall.describeImages "ami-c",
      ApiCall.describeImages "ami-c"] : List ApiCall).countP isCreateImage = 1 :=
  ⟨((image_override_bypasses_provisioning "i-src" [("ImageId", "ami-X")] "ami-c"
        "ami-X" "unused" (fun _ => "pending") 0 [] exampleDescriptor
        (by decide)).1 (by decide)).1,
   (((image_override_bypasses_provisioning "i-src" [("ImageId", "ami-X")] "ami-c"
        "ami-X" "unused" (fun _ => "pending") 0 [] exampleDescriptor
        (by decide)).1 (by decide)).2 "ami-X" [] overriddenConfig
        overriddenRequest (by decide)).2.2,
   (((image_override_bypasses_provisioning "i-src" [] "ami-c" "unused" "ami-c"
        (fun _ => "available") 1
        [ApiCall.createImage "i-src", ApiCall.describeImages "ami-c",
          ApiCall.describeImages "ami-c"] exampleDescriptor
        (by decide)).2 (by decide)).1 (by decide)).2⟩

/-! ## Claim theorems: structural projection errors -/

theorem sanitise_none_of_missing (src : String) (d : Dict) (k : String)
    (hk : k ∈ filter_keys)
    (hknot : k ≠ "SecurityGroups" ∧ k ≠ "IamInstanceProfile" ∧ k ≠ "Tags")
    (hmiss : dictGet d k = none) :
    sanitise_instance_config src d = none := by
  cases hs : sanitise_instance_config src d with
  | none => rfl
  | some p =>
    obtain ⟨m, f⟩ := p
    obtain ⟨c1, c2, hsg, hiam, htags, hproj⟩ := sanitise_anatomy src d m f hs
    have hm : dictGet m k = none := by
      rw [sanitise_step_tags_frame src c2 m k htags hknot.2.2,
        sanitise_step_iam_frame c1 c2 k hiam hknot.2.1,
        sanitise_step_sg_frame d c1 k hsg hknot.1]
      exact hmiss
    rw [project_none_of_missing m filter_keys [] k hk hm] at hproj
    cases hproj

theorem main_run_none_of_sanitise_none (src : String) (overrides : Overrides)
    (cid : String) (states : Nat → String) (fuel : Nat) (d : Dict)
    (h : sanitise_instance_config src d = none) :
    main_run src overrides cid states fuel d = none := by
  unfold main_run
  cases himg : image_phase src overrides cid states fuel with
  | none => rfl
  | some ac => simp [h]

/-- C6: a source descriptor structurally missing any of `ImageId`,
`InstanceType`, `KeyName`, `SubnetId`, `VpcId`, `SecurityGroups` or
`EbsOptimized` (the projected keys other than the intentionally-defaulted
`IamInstanceProfile` and `Tags`) makes `sanitise_instance_config` fail with
a hard error instead of substituting a default, and the whole run then
produces no merge result and no launch request. -/
theorem missing_required_key_hard_error (src : String) (d : Dict) (k : String)
    (overrides : Overrides) (cid : String) (states : Nat → String) (fuel : Nat)
    (hk : k ∈ (["ImageId", "InstanceType", "KeyName", "SubnetId", "VpcId",
      "SecurityGroups", "EbsOptimized"] : List String))
    (hmiss : dictGet d k = none) :
    sanitise_instance_config src d = none ∧
    main_run src overrides cid states fuel d = none := by
  have hsan : sanitise_instance_config src d = none := by
    simp only [List.mem_cons, List.not_mem_nil, or_false] at hk
    rcases hk with rfl | rfl | rfl | rfl | rfl | rfl | rfl
    · exact sanitise_none_of_missing src d _ (by decide)
        ⟨by decide, by decide, by decide⟩ hmiss
    · exact sanitise_none_of_missing src d _ (by decide)
        ⟨by decide, by decide, by decide⟩ hmiss
    · exact sanitise_none_of_missing src d _ (by decide)
        ⟨by decide, by decide, by decide⟩ hmiss
    · exact sanitise_none_of_missing src d _ (by decide)
        ⟨by decide, by decide, by decide⟩ hmiss
    · exact sanitise_none_of_missing src d _ (by decide)
        ⟨by decide, by decide, by decide⟩ hmiss
    · have hstep : sanitise_step_sg d = none := by
        unfold sanitise_step_sg
        rw [hmiss]
      simp [sanitise_instance_config, hstep]
    · exact sanitise_none_of_missing src d _ (by decide)
        ⟨by decide, by decide, by decide⟩ hmiss
  exact ⟨hsan, main_run_none_of_sanitise_none src overrides cid states fuel d hsan⟩

/-- A descriptor identical to `exampleDescriptor` except that the
`SubnetId` key is entirely absent. -/
def missingSubnetDescriptor : Dict :=
  [("ImageId", .str "ami-0"), ("InstanceType", .str "t2.micro"),
   ("KeyName", .str "kp"), ("VpcId", .str "vpc-1"),
   ("SecurityGroups", .sgRecords [⟨"sg-1", "default"⟩, ⟨"sg-2", "web"⟩]),
   ("IamInstanceProfile", .iam ⟨"arn:aws:iam::1:instance-profile/p", "AIPA"⟩),
   ("EbsOptimized", .boolV false),
   ("Tags", .tags [⟨"aws:autoscaling:groupName", "foo"⟩, ⟨"Environment", "prod"⟩])]

/-- C6 witness: a descriptor lacking `SubnetId` makes sanitisation — and
hence the whole run — fail before any launch request is built. -/
theorem missing_required_key_hard_error_witness :
    sanitise_instance_config "i-src" missingSubnetDescriptor = none ∧
    main_run "i-src" [] "ami-c" (fun _ => "available") 1
      missingSubnetDescriptor = none :=
  missing_required_key_hard_error "i-src" missingSubnetDescriptor "SubnetId"
    [] "ami-c" (fun _ => "available") 1 (by decide) (by decide)
